import Mathlib

/-!
Shallow embedding of `src/simple_agent/financial_advisor/analysis_tools.py`,
the investment-analytics core of the repository (series normalization and the
four metric functions CAGR, annualized volatility, Sharpe ratio, maximum
drawdown, plus the `analyze_investment` orchestrator).

Modelling conventions:
* Python floats are idealized as real numbers `ℝ`; machine rounding of
  individual arithmetic operations is not modelled.  `round(x, 2)` is modelled
  as `pyround2` (round half away handled by Mathlib `round`, which rounds half
  up; Python rounds half to even, a divergence only at exact ties, which no
  statement below touches).
* A pandas series is modelled by the list of its values (`List ℝ`) for the
  metric functions, and by a list of (timestamp, value) pairs (`Series`) for
  the orchestrator, where a timestamp is `Option ℕ` (`none` models `NaT`, the
  result of a failed date parse under `errors="coerce"`).
* Python code that can raise is modelled with `Except String`; `.error`
  models a raised exception, which `analyze_investment`s `try/except` catches.
  Fallible library calls that return `None` are modelled with `Option`.
-/

noncomputable section

namespace FinAdvisor

/-- Models Python `round(x, 2)` (round to two decimal places). -/
def pyround2 (x : ℝ) : ℝ := (round (x * 100) : ℤ) / 100

/-- `RISK_FREE_RATE = 0.07` from `analysis_tools.py`. -/
def RISK_FREE_RATE : ℝ := 0.07

/-- Models `prices.pct_change().dropna()`: the list of period-over-period
simple returns `(p[i+1] - p[i]) / p[i]`, one per consecutive pair (the leading
`NaN` produced by `pct_change` is exactly the entry `dropna` removes).  Values
are assumed free of `NaN`/`inf` (real numbers); a zero denominator, which in
pandas yields `inf`, is outside the modelled range (Lean division by zero
gives `0`). -/
def pct_change (prices : List ℝ) : List ℝ :=
  List.zipWith (fun a b => (b - a) / a) prices prices.tail

/-- Arithmetic mean, models `Series.mean()` on a nonempty series. -/
def seriesMean (xs : List ℝ) : ℝ := xs.sum / xs.length

/-- Sample variance with `ddof = 1`, the default of `Series.std()` squared. -/
def sampleVar (xs : List ℝ) : ℝ :=
  (xs.map (fun x => (x - seriesMean xs) ^ 2)).sum / ((xs.length : ℝ) - 1)

/-- Models `Series.std()` (sample standard deviation, `ddof = 1`). -/
def seriesStd (xs : List ℝ) : ℝ := Real.sqrt (sampleVar xs)

/-- `_calculate_volatility` from `analysis_tools.py`:
annualized volatility = std of daily returns × √252, as a percentage rounded
to 2 decimals; `None` for series of fewer than 30 points or an empty return
sequence. -/
def _calculate_volatility (prices : List ℝ) : Option ℝ :=
  if prices.length < 30 then none
  else if pct_change prices = [] then none
  else some (pyround2 (seriesStd (pct_change prices) * Real.sqrt 252 * 100))

/-- `_calculate_sharpe` from `analysis_tools.py`:
`(mean(returns)·252 − RISK_FREE_RATE) / (std(returns)·√252)` rounded to
2 decimals; `None` for fewer than 30 points, an empty return sequence, or a
zero standard deviation of returns. -/
def _calculate_sharpe (prices : List ℝ) : Option ℝ :=
  if prices.length < 30 then none
  else if pct_change prices = [] ∨ seriesStd (pct_change prices) = 0 then none
  else
    some (pyround2 ((seriesMean (pct_change prices) * 252 - RISK_FREE_RATE) /
      (seriesStd (pct_change prices) * Real.sqrt 252)))

/-- Running maxima of a list, continuing from an already-seen maximum `m`. -/
def cummaxFrom (m : ℝ) : List ℝ → List ℝ
  | [] => []
  | x :: xs => max m x :: cummaxFrom (max m x) xs

/-- Models `Series.cummax()`: element `i` is the maximum of the prefix up to
and including `i`. -/
def cummax : List ℝ → List ℝ
  | [] => []
  | x :: xs => x :: cummaxFrom x xs

/-- `_calculate_max_drawdown` from `analysis_tools.py`:
drawdown per point = `(value − running_max) / running_max`, result = minimum
drawdown as a percentage rounded to 2 decimals; `None` for fewer than
2 points.  `Series.min()` on the nonempty drawdown list is modelled by a
`min`-fold; the `[]` case of the match is unreachable for length ≥ 2. -/
def _calculate_max_drawdown (prices : List ℝ) : Option ℝ :=
  if prices.length < 2 then none
  else
    match List.zipWith (fun p m => (p - m) / m) prices (cummax prices) with
    | [] => none
    | d :: ds => some (pyround2 (ds.foldl min d * 100))

/-- The window of prices `_calculate_cagr` retains: the whole series when it
is shorter than `years × 252`, otherwise the last `years × 252` points
(`prices.iloc[-trading_days:]`; for `trading_days = 0` Python `-0 == 0`
makes that slice the WHOLE series, not the empty one). -/
def retainedWindow (prices : List ℝ) (years : ℕ) : List ℝ :=
  if prices.length < years * 252 then prices
  else if years * 252 = 0 then prices
  else prices.drop (prices.length - years * 252)

/-- The effective number of years `_calculate_cagr` uses: `len(prices)/252`
when the series is shorter than the requested window, else `years`. -/
def actualYears (prices : List ℝ) (years : ℕ) : ℝ :=
  if prices.length < years * 252 then (prices.length : ℝ) / 252
  else (years : ℝ)

open Classical in
/-- `_calculate_cagr` from `analysis_tools.py`.  `.ok none` models
`return None` (insufficient data); `.error` models an uncaught Python
exception:
* `1 / actual_years` with `actual_years = 0` (only reachable for `years = 0`)
  raises `ZeroDivisionError`;
* `base ** exp` with a negative base and a non-integral exponent yields a
  `complex` in Python 3, and the subsequent `round(..., 2)` then raises
  `TypeError` (complex defines no `__round__`).
On the remaining domain the power is real and is modelled by `Real.rpow`
(which agrees with Python `**` there, including negative base with integral
exponent and zero base with positive exponent). -/
def _calculate_cagr (prices : List ℝ) (years : ℕ) : Except String (Option ℝ) :=
  if prices.length < 2 then .ok none
  else if (retainedWindow prices years).headI ≤ 0 then .ok none
  else if actualYears prices years = 0 then
    .error ("ZeroDivisionError: division by zero")
  else if (retainedWindow prices years).getLastI /
        (retainedWindow prices years).headI < 0 ∧
      ∀ n : ℤ, 1 / actualYears prices years ≠ (n : ℝ) then
    .error ("TypeError: type complex does not define __round__ method")
  else
    .ok (some (pyround2 ((((retainedWindow prices years).getLastI /
      (retainedWindow prices years).headI) ^
        (1 / actualYears prices years) - 1) * 100)))

/-! ### Series normalization (`_get_mf_navs`, `_get_stock_prices`)

The date/NAV parsing done by `pd.to_datetime(..., format="%d-%m-%Y",
errors="coerce")` and `Series.astype(float)` is modelled by character-level
parsers over the string data.  The modelled grammar covers plain decimal
NAV strings (optional leading minus, digits, optional fractional part);
exotic Python float spellings (`nan`, `inf`, exponent notation, embedded
whitespace or underscores) are outside the modelled range. -/

/-- Split a character list on a separator character (like Python
`str.split(sep)`): `n` separators yield `n + 1` (possibly empty) parts. -/
def splitOnChar (sep : Char) : List Char → List (List Char)
  | [] => [[]]
  | c :: cs =>
    if c = sep then [] :: splitOnChar sep cs
    else
      match splitOnChar sep cs with
      | [] => [[c]]
      | p :: ps => (c :: p) :: ps

/-- Read a nonempty all-digit character list as a natural number. -/
def natOfDigits? (cs : List Char) : Option ℕ :=
  if cs = [] ∨ ¬ cs.all (fun c => c.isDigit) then none
  else some (cs.foldl (fun n c => 10 * n + (c.toNat - 48)) 0)

/-- Gregorian days-in-month, as validated by the `%d-%m-%Y` date parser. -/
def daysInMonth (y m : ℕ) : ℕ :=
  if m = 2 then (if y % 4 = 0 ∧ (y % 100 ≠ 0 ∨ y % 400 = 0) then 29 else 28)
  else if m = 4 ∨ m = 6 ∨ m = 9 ∨ m = 11 then 30 else 31

/-- Models one element of `pd.to_datetime(index, format="%d-%m-%Y",
errors="coerce")`: a `day-month-year` string with 1–2 digit day (1–31,
valid for the month), 1–2 digit month (1–12) and 4-digit year parses to the
order-preserving key `y·10000 + m·100 + d`; anything else coerces to `NaT`
(`none`). -/
def parseDate (s : String) : Option ℕ :=
  match splitOnChar '-' s.toList with
  | [ds, ms, ys] =>
    match natOfDigits? ds, natOfDigits? ms, natOfDigits? ys with
    | some d, some m, some y =>
      if ds.length ≤ 2 ∧ ms.length ≤ 2 ∧ ys.length = 4 ∧
          1 ≤ d ∧ 1 ≤ m ∧ m ≤ 12 ∧ d ≤ daysInMonth y m then
        some (y * 10000 + m * 100 + d)
      else none
    | _, _, _ => none
  | _ => none

/-- Unsigned decimal: `digits` or `digits.digits`. -/
def parseNavChars : List Char → Option ℚ
  | cs =>
    match splitOnChar '.' cs with
    | [a] => (natOfDigits? a).map (fun n => (n : ℚ))
    | [a, b] =>
      match natOfDigits? a, natOfDigits? b with
      | some n, some f => some ((n : ℚ) + (f : ℚ) / 10 ^ b.length)
      | _, _ => none
    | _ => none

/-- Models Python `float(s)` as used by `Series.astype(float)` on NAV
strings, over the plain-decimal grammar (see the section comment): `none`
models a raised `ValueError`. -/
def parseNav (s : String) : Option ℚ :=
  match s.toList with
  | '-' :: rest => (parseNavChars rest).map (fun q => -q)
  | cs => parseNavChars cs

/-- A normalized series entry: `(timestamp, value)`, where the timestamp is
`none` for pandas `NaT` (a date string that failed to parse). -/
abbrev Series := List (Option ℕ × ℝ)

/-- Index order used by `sort_index()`: timestamps ascending, `NaT` last
(pandas default `na_position="last"`). -/
def tsLE : Option ℕ → Option ℕ → Prop
  | _, none => True
  | none, some _ => False
  | some a, some b => a ≤ b

instance : DecidableRel tsLE := fun a b =>
  match a, b with
  | none, none => .isTrue trivial
  | some _, none => .isTrue trivial
  | none, some _ => .isFalse (fun h => h)
  | some x, some y => inferInstanceAs (Decidable (x ≤ y))

/-- `sort_index()` comparison lifted to series entries. -/
def entryLE (a b : Option ℕ × ℝ) : Prop := tsLE a.1 b.1

instance : DecidableRel entryLE := fun a b =>
  inferInstanceAs (Decidable (tsLE a.1 b.1))

instance : IsTotal (Option ℕ × ℝ) entryLE where
  total a b := by
    unfold entryLE
    rcases a with ⟨_ | x, _⟩ <;> rcases b with ⟨_ | y, _⟩ <;>
      simp only [tsLE] <;> try trivial
    exact le_total x y

instance : IsTrans (Option ℕ × ℝ) entryLE where
  trans a b c := by
    unfold entryLE
    rcases a with ⟨_ | x, _⟩ <;> rcases b with ⟨_ | y, _⟩ <;>
      rcases c with ⟨_ | z, _⟩ <;> simp only [tsLE] <;>
      first
        | exact fun _ _ => trivial
        | exact fun h => (h.elim)
        | exact fun _ h => (h.elim)
        | exact le_trans

/-- Parse a batch of `(date-string, NAV-string)` records.  `astype(float)`
raises on the first NAV string `float()` rejects, so a single bad NAV fails
the whole batch (`none`); date parsing uses `errors="coerce"`, so a bad date
yields a `none` timestamp but keeps the record. -/
def parseRecords : List (String × String) → Option Series
  | [] => some []
  | r :: rs =>
    match parseNav r.2, parseRecords rs with
    | some v, some out => some ((parseDate r.1, (v : ℝ)) :: out)
    | _, _ => none

/-- `_get_mf_navs` from `analysis_tools.py`.  The `history` argument models
the `mf.get_scheme_historical_nav(...)` response: `none` for a raised
exception or a `None` result, `some rs` for a dataframe with record list
`rs`.  The steps modelled: empty check; `astype(float)` (fails the batch on
any unparsable NAV); index conversion via `to_datetime(...,
errors="coerce")` (bad dates become `NaT`, records are kept); `dropna()`
(drops NaN *values* only — values are reals here, so it is a no-op, and in
particular `NaT`-indexed records are NOT dropped); `sort_index()` (ascending,
`NaT` last; pandas' unstable quicksort is modelled by a sort that is correct
w.r.t. the same order — tie order among equal timestamps is not relied on
anywhere). -/
def _get_mf_navs (history : Option (List (String × String))) : Option Series :=
  match history with
  | none => none
  | some rs =>
    if rs = [] then none
    else
      match parseRecords rs with
      | none => none
      | some entries => some (List.insertionSort entryLE entries)

/-- `_get_stock_prices` from `analysis_tools.py`.  The `hist` argument models
the `yf.Ticker(...).history(...)` response (`none` = raised exception, caught
and turned into `None`); extraction of the `Close` column is elided — the
series IS the close series. -/
def _get_stock_prices (hist : Option Series) : Option Series :=
  match hist with
  | none => none
  | some h => if h.isEmpty then none else some h

/-! ### The orchestrator `analyze_investment` -/

/-- Models `Timestamp.strftime("%Y-%m-%d")`: defined on real timestamps,
raises (`none`, caught by the orchestrator's `except`) on `NaT`. -/
def fmtDate : Option ℕ → Option String
  | none => none
  | some t => some (toString t)

/-- The `metrics` sub-dictionary of a success report.  `none` models the
`"Insufficient data"` sentinel string the code stores in a slot whose metric
function returned `None`. -/
structure MetricsBlock where
  cagr_1y_percent : Option ℝ
  cagr_3y_percent : Option ℝ
  cagr_5y_percent : Option ℝ
  annualized_volatility_percent : Option ℝ
  sharpe_ratio : Option ℝ
  max_drawdown_percent : Option ℝ

/-- The success dictionary built by `analyze_investment`. -/
structure Report where
  identifier : String
  investment_type : String
  label : String
  data_points : ℕ
  data_start_date : String
  data_end_date : String
  latest_value : ℝ
  metrics : MetricsBlock
  risk_free_rate_percent : ℝ
  trading_days_per_year : ℕ
  disclaimer : String

/-- The return value of `analyze_investment`: either a dictionary containing
(only) the key `error`, or the full report dictionary. -/
inductive AnalysisResult where
  | error (msg : String)
  | report (r : Report)

def insufficientDataMsg (identifier : String) : String :=
  ("Insufficient historical data for \x27" ++ identifier ++
    "\x27. Verify the identifier and try again.")

def analysisFailedMsg (identifier cause : String) : String :=
  ("Analysis failed for \x27" ++ identifier ++ "\x27: " ++ cause)

def natStrftimeMsg : String := ("NaTType does not support strftime")

def invalidTypeMsg (investment_type : String) : String :=
  ("Invalid investment_type \x27" ++ investment_type ++
    "\x27. Use \x27stock\x27 or \x27mutual_fund\x27.")

/-- The body of `analyze_investment` after the fetch: the 10-point gate, the
six metric computations, and report assembly, inside the `try`.  A raised
exception (a CAGR fault, or `strftime` on a `NaT` boundary timestamp) is
caught and becomes the `Analysis failed` error dictionary.  Volatility,
Sharpe and max drawdown cannot raise on real-valued input; they are written
in the report literal directly (in the source they are computed just before
it). -/
def analyzeSeries (identifier label investment_type : String)
    (pricesOpt : Option Series) : AnalysisResult :=
  match pricesOpt with
  | none => .error (insufficientDataMsg identifier)
  | some prices =>
    if prices.length < 10 then .error (insufficientDataMsg identifier)
    else
      let vals := prices.map Prod.snd
      match _calculate_cagr vals 1 with
      | .error e => .error (analysisFailedMsg identifier e)
      | .ok cagr_1y =>
        match _calculate_cagr vals 3 with
        | .error e => .error (analysisFailedMsg identifier e)
        | .ok cagr_3y =>
          match _calculate_cagr vals 5 with
          | .error e => .error (analysisFailedMsg identifier e)
          | .ok cagr_5y =>
            match fmtDate prices.headI.1 with
            | none => .error (analysisFailedMsg identifier natStrftimeMsg)
            | some start_date =>
              match fmtDate prices.getLastI.1 with
              | none => .error (analysisFailedMsg identifier natStrftimeMsg)
              | some end_date =>
                .report
                  { identifier := identifier
                    investment_type := investment_type
                    label := label
                    data_points := prices.length
                    data_start_date := start_date
                    data_end_date := end_date
                    latest_value := pyround2 vals.getLastI
                    metrics :=
                      { cagr_1y_percent := cagr_1y
                        cagr_3y_percent := cagr_3y
                        cagr_5y_percent := cagr_5y
                        annualized_volatility_percent :=
                          _calculate_volatility vals
                        sharpe_ratio := _calculate_sharpe vals
                        max_drawdown_percent := _calculate_max_drawdown vals }
                    risk_free_rate_percent := RISK_FREE_RATE * 100
                    trading_days_per_year := 252
                    disclaimer :=
                      ("Past performance is not indicative of future results. This is for informational purposes only.") }

/-- `analyze_investment` from `analysis_tools.py`.  The two leading arguments
model the network responses the two adapters would fetch for `identifier`
(see `_get_stock_prices` and `_get_mf_navs`); the code consults only the one
selected by `investment_type`, and neither for an invalid type. -/
def analyze_investment (stock_history : Option Series)
    (mf_history : Option (List (String × String)))
    (identifier : String) (investment_type : String) : AnalysisResult :=
  if investment_type = "stock" then
    analyzeSeries identifier ("Stock: " ++ identifier) investment_type
      (_get_stock_prices stock_history)
  else if investment_type = "mutual_fund" then
    analyzeSeries identifier ("Mutual Fund (scheme code: " ++ identifier ++ ")")
      investment_type (_get_mf_navs mf_history)
  else .error (invalidTypeMsg investment_type)

/-- The normalized series `analyze_investment` works on for a recognized
`investment_type`: the stock adapter's result for `"stock"`, the mutual-fund
normalizer's result otherwise. -/
def fetchedSeries (stock_history : Option Series)
    (mf_history : Option (List (String × String)))
    (investment_type : String) : Option Series :=
  if investment_type = "stock" then _get_stock_prices stock_history
  else _get_mf_navs mf_history

/-- Fixture: a 10-point constant series with valid timestamps. -/
def constSeries10 : Series :=
  [((some 0), (1 : ℝ)), ((some 1), 1), ((some 2), 1), ((some 3), 1),
   ((some 4), 1), ((some 5), 1), ((some 6), 1), ((some 7), 1),
   ((some 8), 1), ((some 9), 1)]

/-- Fixture: a 10-point series ending in a negative value. -/
def negEndSeries : Series :=
  [((some 0), (1 : ℝ)), ((some 1), 1), ((some 2), 1), ((some 3), 1),
   ((some 4), 1), ((some 5), 1), ((some 6), 1), ((some 7), 1),
   ((some 8), 1), ((some 9), -1)]

/-- Fixture: an 11-point positive series whose last timestamp is `NaT`. -/
def natEndSeries : Series :=
  [((some 0), (1 : ℝ)), ((some 1), 1), ((some 2), 1), ((some 3), 1),
   ((some 4), 1), ((some 5), 1), ((some 6), 1), ((some 7), 1),
   ((some 8), 1), ((some 9), 1), (none, 1)]

/-! ### Helper lemmas -/

lemma headI_mem {α} [Inhabited α] (l : List α) (h : l ≠ []) : l.headI ∈ l := by
  cases l with
  | nil => exact absurd rfl h
  | cons a t => exact List.mem_cons_self a t

lemma getLastI_mem {α} [Inhabited α] (l : List α) (h : l ≠ []) : l.getLastI ∈ l := by
  have hs : l.getLast?.isSome := by rwa [List.getLast?_isSome]
  obtain ⟨a, ha⟩ := Option.isSome_iff_exists.mp hs
  rw [List.getLastI_eq_getLast?, ha, Option.iget_some]
  obtain ⟨hne, rfl⟩ :=
    List.mem_getLast?_eq_getLast (l := l) (x := a) (Option.mem_def.mpr ha)
  exact List.getLast_mem hne

lemma round_mono_real {x y : ℝ} (h : x ≤ y) : round x ≤ round y := by
  rw [round_eq, round_eq]
  exact Int.floor_mono (by linarith)

lemma pyround2_zero : pyround2 0 = 0 := by
  unfold pyround2
  norm_num

lemma pyround2_nonpos {x : ℝ} (h : x ≤ 0) : pyround2 x ≤ 0 := by
  unfold pyround2
  have h1 : round (x * 100) ≤ 0 := by
    have h2 := round_mono_real (show x * 100 ≤ 0 by nlinarith)
    simpa using h2
  have h3 : ((round (x * 100) : ℤ) : ℝ) ≤ 0 := by exact_mod_cast h1
  rw [div_nonpos_iff]
  right
  exact ⟨h3, by norm_num⟩

lemma foldl_min_le_init (l : List ℝ) : ∀ a : ℝ, l.foldl min a ≤ a := by
  induction l with
  | nil => intro a; simp
  | cons x xs ih => intro a; exact le_trans (ih (min a x)) (min_le_left a x)

lemma foldl_min_all_zero : ∀ l : List ℝ, (∀ d ∈ l, d = 0) → l.foldl min 0 = 0
  | [], _ => rfl
  | x :: xs, h => by
    have hx : x = 0 := h x (by simp)
    have hres := foldl_min_all_zero xs (fun d hd => h d (by simp [hd]))
    simpa [hx] using hres

/-- Along a `(≤)`-chain starting at a positive running maximum every drawdown
`(p - runmax) / runmax` is zero. -/
lemma chain_dd_eq_zero : ∀ (l : List ℝ) (m : ℝ), 0 < m →
    List.Chain (· ≤ ·) m l →
    ∀ d ∈ List.zipWith (fun p q => (p - q) / q) l (cummaxFrom m l), d = 0 := by
  intro l
  induction l with
  | nil => simp
  | cons x xs ih =>
    intro m hm hch d hd
    rw [List.chain_cons] at hch
    obtain ⟨hmx, hch⟩ := hch
    rw [cummaxFrom, max_eq_right hmx, List.zipWith_cons_cons] at hd
    rcases List.mem_cons.mp hd with h | h
    · rw [h, sub_self, zero_div]
    · exact ih x (lt_of_lt_of_le hm hmx) hch d h

/-! ### Claims -/

/-- C5: for every series of at least 2 strictly positive values,
`_calculate_max_drawdown` returns a value `≤ 0`, and exactly `0` on a
monotonically non-decreasing series. -/
theorem max_drawdown_nonpos (S : List ℝ) (h2 : 2 ≤ S.length)
    (hpos : ∀ x ∈ S, 0 < x) :
    ∃ v, _calculate_max_drawdown S = some v ∧ v ≤ 0 ∧
      (List.Chain' (· ≤ ·) S → v = 0) := by
  obtain ⟨x, xs, rfl⟩ : ∃ x xs, S = x :: xs := by
    cases S with
    | nil => simp at h2
    | cons a t => exact ⟨a, t, rfl⟩
  have hx : 0 < x := hpos x (by simp)
  have hd0 : (x - x) / x = 0 := by rw [sub_self, zero_div]
  simp only [_calculate_max_drawdown]
  rw [if_neg (not_lt.mpr h2)]
  simp only [cummax, List.zipWith_cons_cons]
  refine ⟨_, rfl, ?_, ?_⟩
  · refine pyround2_nonpos ?_
    have hfold : (List.zipWith (fun p q => (p - q) / q) xs
        (cummaxFrom x xs)).foldl min ((x - x) / x) ≤ 0 := by
      rw [hd0]
      exact foldl_min_le_init _ 0
    nlinarith
  · intro hch
    have hall := chain_dd_eq_zero xs x hx hch
    rw [hd0, foldl_min_all_zero _ hall, zero_mul, pyround2_zero]

/-- C5 witness: a concrete increasing 2-point series has max drawdown 0. -/
theorem max_drawdown_nonpos_witness :
    _calculate_max_drawdown [(1 : ℝ), 2] = some 0 := by
  obtain ⟨v, hv, _, hch⟩ := max_drawdown_nonpos [(1 : ℝ), 2] (by norm_num)
    (by intro x hx; rcases List.mem_cons.mp hx with rfl | hx <;> simp_all)
  rw [hch (by constructor <;> norm_num)] at hv
  exact hv

/-- C7: both volatility and Sharpe return the insufficient-data marker for
any series with fewer than 30 points. -/
theorem short_series_vol_sharpe_none (S : List ℝ) (h : S.length < 30) :
    _calculate_volatility S = none ∧ _calculate_sharpe S = none :=
  ⟨by simp only [_calculate_volatility]; rw [if_pos h],
   by simp only [_calculate_sharpe]; rw [if_pos h]⟩

/-- C7 witness at a concrete 2-point series. -/
theorem short_series_vol_sharpe_none_witness :
    [(1 : ℝ), 2].length < 30 ∧ _calculate_volatility [(1 : ℝ), 2] = none ∧
      _calculate_sharpe [(1 : ℝ), 2] = none :=
  ⟨by norm_num,
   (short_series_vol_sharpe_none [(1 : ℝ), 2] (by norm_num)).1,
   (short_series_vol_sharpe_none [(1 : ℝ), 2] (by norm_num)).2⟩

/-- A natural fraction whose denominator does not divide its numerator is
not an integer. -/
lemma div_not_int (a b : ℕ) (hb : b ≠ 0) (h : ¬ b ∣ a) (n : ℤ) :
    ((a : ℝ) / (b : ℝ)) ≠ (n : ℝ) := by
  intro e
  have hb' : ((b : ℕ) : ℝ) ≠ 0 := Nat.cast_ne_zero.mpr hb
  have h1 : (a : ℝ) = (n : ℝ) * (b : ℝ) := (div_eq_iff hb').mp e
  have h2 : (a : ℤ) = n * (b : ℤ) := by exact_mod_cast h1
  exact h (Int.natCast_dvd_natCast.mp ⟨n, by rw [h2]; ring⟩)

/-- C1 (amended): `_calculate_cagr` returns the `None` marker — and never a
fault — for every series with fewer than 2 points, and for every series whose
retained window (the last `years × 252` points when available, else the whole
series) starts with a non-positive value; the non-positivity guard applies to
the retained window's first element, not to `S[0]`. -/
theorem cagr_none_of_short_or_nonpos_start (S : List ℝ) (years : ℕ)
    (h : S.length < 2 ∨ (retainedWindow S years).headI ≤ 0) :
    _calculate_cagr S years = .ok none := by
  simp only [_calculate_cagr]
  rcases h with h | h
  · rw [if_pos h]
  · by_cases h2 : S.length < 2
    · rw [if_pos h2]
    · rw [if_neg h2, if_pos h]

/-- C1 witness: a short series starting at a negative value. -/
theorem cagr_none_of_short_or_nonpos_start_witness :
    (retainedWindow [(-1 : ℝ), 1] 1).headI ≤ 0 ∧
      _calculate_cagr [(-1 : ℝ), 1] 1 = .ok none :=
  ⟨by norm_num [retainedWindow],
   cagr_none_of_short_or_nonpos_start [(-1 : ℝ), 1] 1
     (Or.inr (by norm_num [retainedWindow]))⟩

set_option maxRecDepth 8000 in
/-- C1 counterexample: a 253-point series whose FIRST element is negative
still yields a numeric CAGR (not `None`) for a 1-year horizon, because the
guard is applied after slicing off everything but the last 252 points. -/
theorem cagr_nonpos_start_cex :
    ((-1 : ℝ) :: List.replicate 252 1).headI ≤ 0 ∧
      _calculate_cagr ((-1 : ℝ) :: List.replicate 252 1) 1 = .ok (some 0) := by
  constructor
  · norm_num
  · have hlen : ((-1 : ℝ) :: List.replicate 252 1).length = 253 := by
      rw [List.length_cons, List.length_replicate]
    have hwin : retainedWindow ((-1 : ℝ) :: List.replicate 252 1) 1 =
        List.replicate 252 1 := by
      unfold retainedWindow
      rw [hlen]
      norm_num
    have hhead : (List.replicate 252 (1 : ℝ)).headI = 1 := by
      rw [show (252 : ℕ) = 251 + 1 by norm_num, List.replicate_succ, List.headI_cons]
    have hlast : (List.replicate 252 (1 : ℝ)).getLastI = 1 :=
      List.eq_of_mem_replicate (getLastI_mem _ (by
        rw [show (252 : ℕ) = 251 + 1 by norm_num, List.replicate_succ]
        exact List.cons_ne_nil 1 _))
    have hay : actualYears ((-1 : ℝ) :: List.replicate 252 1) 1 = 1 := by
      unfold actualYears
      rw [hlen]
      norm_num
    simp only [_calculate_cagr]
    rw [hwin, hay, hlen, hhead, hlast]
    norm_num [Real.one_rpow, pyround2]

/-- C4 (amended): for a series with at least 2 points, a positive first value,
a nonnegative last value, and fewer than `years × 252` points,
`_calculate_cagr` degrades gracefully: it uses the whole series with
`effective_years = len / 252` and returns
`(S[-1]/S[0]) ^ (1/effective_years) − 1` as a percentage rounded to
2 decimals.  (Without `0 ≤ S[-1]` the code can instead raise, see the
counterexample.) -/
theorem cagr_short_series_formula (S : List ℝ) (years : ℕ)
    (h2 : 2 ≤ S.length) (hstart : 0 < S.headI) (hlt : S.length < years * 252)
    (hend : 0 ≤ S.getLastI) :
    _calculate_cagr S years = .ok (some (pyround2
      (((S.getLastI / S.headI) ^ ((1 : ℝ) / ((S.length : ℝ) / 252)) - 1) * 100))) := by
  have hw : retainedWindow S years = S := by
    unfold retainedWindow
    rw [if_pos hlt]
  have ha : actualYears S years = (S.length : ℝ) / 252 := by
    unfold actualYears
    rw [if_pos hlt]
  have hlpos : (0 : ℝ) < (S.length : ℝ) := by
    exact_mod_cast Nat.lt_of_lt_of_le (by norm_num) h2
  have hay : ((S.length : ℝ) / 252) ≠ 0 := by positivity
  have hratio : ¬ (S.getLastI / S.headI < 0 ∧
      ∀ n : ℤ, 1 / ((S.length : ℝ) / 252) ≠ (n : ℝ)) := by
    rintro ⟨hneg, -⟩
    exact absurd (div_nonneg hend hstart.le) (not_le.mpr hneg)
  simp only [_calculate_cagr]
  rw [hw, ha]
  rw [if_neg (not_lt.mpr h2), if_neg (not_le.mpr hstart), if_neg hay, if_neg hratio]

/-- C4 witness: the 2-point series `[1, 1]` with a 1-year horizon. -/
theorem cagr_short_series_formula_witness :
    2 ≤ [(1 : ℝ), 1].length ∧ 0 < [(1 : ℝ), 1].headI ∧
      [(1 : ℝ), 1].length < 1 * 252 ∧ 0 ≤ [(1 : ℝ), 1].getLastI ∧
      _calculate_cagr [(1 : ℝ), 1] 1 = .ok (some (pyround2
        ((([(1 : ℝ), 1].getLastI / [(1 : ℝ), 1].headI) ^
          ((1 : ℝ) / (([(1 : ℝ), 1].length : ℝ) / 252)) - 1) * 100))) :=
  ⟨by norm_num, by norm_num, by norm_num, by norm_num [List.getLastI],
   cagr_short_series_formula [(1 : ℝ), 1] 1 (by norm_num) (by norm_num)
     (by norm_num) (by norm_num [List.getLastI])⟩

/-- C4 counterexample: a 5-point series with positive start but negative end.
Python computes `(-1.0) ** 50.4`, which is a `complex`, and `round` then
raises `TypeError` — the call faults instead of returning the formula value. -/
theorem cagr_short_series_cex :
    2 ≤ [(1 : ℝ), 1, 1, 1, -1].length ∧ 0 < [(1 : ℝ), 1, 1, 1, -1].headI ∧
      [(1 : ℝ), 1, 1, 1, -1].length < 1 * 252 ∧
      _calculate_cagr [(1 : ℝ), 1, 1, 1, -1] 1 =
        .error ("TypeError: type complex does not define __round__ method") := by
  refine ⟨by norm_num, by norm_num, by norm_num, ?_⟩
  have hw : retainedWindow [(1 : ℝ), 1, 1, 1, -1] 1 = [(1 : ℝ), 1, 1, 1, -1] := by
    unfold retainedWindow
    norm_num
  have ha : actualYears [(1 : ℝ), 1, 1, 1, -1] 1 = (5 : ℝ) / 252 := by
    unfold actualYears
    norm_num
  have hlast : [(1 : ℝ), 1, 1, 1, -1].getLastI = -1 := by
    simp [List.getLastI]
  have hcond : [(1 : ℝ), 1, 1, 1, -1].getLastI / [(1 : ℝ), 1, 1, 1, -1].headI < 0 ∧
      ∀ n : ℤ, 1 / ((5 : ℝ) / 252) ≠ (n : ℝ) := by
    constructor
    · rw [hlast]
      norm_num
    · intro n
      rw [one_div_div]
      exact div_not_int 252 5 (by norm_num) (by decide) n
  simp only [_calculate_cagr]
  rw [hw, ha]
  rw [if_neg (by norm_num), if_neg (by norm_num), if_neg (by norm_num), if_pos hcond]

lemma length_pct_change (l : List ℝ) : (pct_change l).length = l.length - 1 := by
  unfold pct_change
  rw [List.length_zipWith, List.length_tail]
  omega

lemma pct_change_ne_nil (l : List ℝ) (h : 2 ≤ l.length) : pct_change l ≠ [] := by
  intro he
  have hl := length_pct_change l
  rw [he] at hl
  simp at hl
  omega

lemma pct_change_replicate (n : ℕ) (a : ℝ) :
    pct_change (List.replicate (n + 1) a) = List.replicate n 0 := by
  induction n with
  | zero => rfl
  | succ k ih =>
    simp only [List.replicate_succ, pct_change, List.tail_cons,
      List.zipWith_cons_cons] at ih ⊢
    rw [sub_self, zero_div, ih]

lemma seriesStd_replicate_zero (n : ℕ) :
    seriesStd (List.replicate n (0 : ℝ)) = 0 := by
  simp [seriesStd, sampleVar, seriesMean, List.map_replicate, List.sum_replicate]

/-- The returns of a constant positive series have zero standard deviation. -/
lemma std_pct_replicate_one :
    seriesStd (pct_change (List.replicate 30 (1 : ℝ))) = 0 := by
  rw [show (30 : ℕ) = 29 + 1 from rfl, pct_change_replicate, seriesStd_replicate_zero]

/-- C10: for every series of at least 30 strictly positive values,
`_calculate_volatility` returns a numeric value — the sample standard
deviation of the `N − 1` period-over-period returns times `√252`, as a
percentage rounded to 2 decimals — and the internal empty-returns branch is
unreachable. -/
theorem volatility_formula (S : List ℝ) (h30 : 30 ≤ S.length)
    (hpos : ∀ x ∈ S, 0 < x) :
    _calculate_volatility S =
        some (pyround2 (seriesStd (pct_change S) * Real.sqrt 252 * 100)) ∧
      pct_change S ≠ [] ∧ (pct_change S).length = S.length - 1 := by
  have hne := pct_change_ne_nil S (by omega)
  refine ⟨?_, hne, length_pct_change S⟩
  simp only [_calculate_volatility]
  rw [if_neg (by omega), if_neg hne]

/-- C10 witness: a constant 30-point series has volatility exactly 0 (not the
insufficient-data marker). -/
theorem volatility_formula_witness :
    30 ≤ (List.replicate 30 (1 : ℝ)).length ∧
      _calculate_volatility (List.replicate 30 (1 : ℝ)) = some 0 := by
  have h := (volatility_formula (List.replicate 30 (1 : ℝ)) (by simp)
    (by intro x hx; rw [List.eq_of_mem_replicate hx]; norm_num)).1
  rw [std_pct_replicate_one, zero_mul, zero_mul, pyround2_zero] at h
  exact ⟨by simp, h⟩

/-- C6: for every series of at least 30 strictly positive values,
`_calculate_sharpe` returns
`(mean(returns)·252 − 0.07) / (std(returns)·√252)` rounded to 2 decimals when
the returns' standard deviation is non-zero, and the insufficient-data marker
(rather than faulting) when it is zero. -/
theorem sharpe_formula_and_zero_std (S : List ℝ) (h30 : 30 ≤ S.length)
    (hpos : ∀ x ∈ S, 0 < x) :
    (seriesStd (pct_change S) ≠ 0 → _calculate_sharpe S =
      some (pyround2 ((seriesMean (pct_change S) * 252 - 0.07) /
        (seriesStd (pct_change S) * Real.sqrt 252)))) ∧
    (seriesStd (pct_change S) = 0 → _calculate_sharpe S = none) := by
  have hne := pct_change_ne_nil S (by omega)
  constructor
  · intro hstd
    simp only [_calculate_sharpe]
    rw [if_neg (by omega), if_neg (by push_neg; exact ⟨hne, hstd⟩)]
    norm_num [RISK_FREE_RATE]
  · intro hstd
    simp only [_calculate_sharpe]
    rw [if_neg (by omega), if_pos (Or.inr hstd)]

/-- C6 witness: a constant positive 30-point series has zero-variance returns
and gets the marker, not a fault. -/
theorem sharpe_formula_and_zero_std_witness :
    30 ≤ (List.replicate 30 (1 : ℝ)).length ∧
      (∀ x ∈ List.replicate 30 (1 : ℝ), 0 < x) ∧
      _calculate_sharpe (List.replicate 30 (1 : ℝ)) = none := by
  refine ⟨by simp, ?_, ?_⟩
  · intro x hx
    rw [List.eq_of_mem_replicate hx]
    norm_num
  · exact (sharpe_formula_and_zero_std (List.replicate 30 (1 : ℝ)) (by simp)
      (by intro x hx; rw [List.eq_of_mem_replicate hx]; norm_num)).2
      std_pct_replicate_one

lemma parseRecords_eq_none (rs : List (String × String))
    (h : ∃ r ∈ rs, parseNav r.2 = none) : parseRecords rs = none := by
  induction rs with
  | nil => obtain ⟨r, hr, -⟩ := h; simp at hr
  | cons a t ih =>
    obtain ⟨r, hr, hn⟩ := h
    rcases List.mem_cons.mp hr with rfl | hr
    · simp only [parseRecords, hn]
    · simp only [parseRecords, ih ⟨r, hr, hn⟩]
      cases parseNav a.2 <;> rfl

lemma parseRecords_eq_some (rs : List (String × String))
    (h : ∀ r ∈ rs, (parseNav r.2).isSome) : ∃ entries : Series,
      parseRecords rs = some entries ∧ entries.length = rs.length ∧
      entries.map Prod.fst = rs.map (fun r => parseDate r.1) := by
  induction rs with
  | nil => exact ⟨[], rfl, rfl, rfl⟩
  | cons a t ih =>
    obtain ⟨v, hv⟩ := Option.isSome_iff_exists.mp (h a (by simp))
    obtain ⟨es, he, hlen, hmap⟩ := ih (fun r hr => h r (by simp [hr]))
    refine ⟨(parseDate a.1, (v : ℝ)) :: es, ?_, by simp [hlen], by simp [hmap]⟩
    simp only [parseRecords, hv, he]

/-- C2 (amended): `_get_mf_navs` parses dates in day-month-year format
(failures are coerced to a missing timestamp and the record is KEPT), parses
NAV strings to numeric where a single parse failure fails the WHOLE batch
(the no-data signal, `none`), and otherwise returns exactly one entry per
record — duplicates included, no deduplication — sorted ascending by
timestamp with missing timestamps last. -/
theorem mf_navs_normalization (rs : List (String × String)) (hne : rs ≠ []) :
    ((∃ r ∈ rs, parseNav r.2 = none) → _get_mf_navs (some rs) = none) ∧
    ((∀ r ∈ rs, (parseNav r.2).isSome) → ∃ out : Series,
      _get_mf_navs (some rs) = some out ∧ out.length = rs.length ∧
      List.Sorted entryLE out ∧
      (out.map Prod.fst).Perm (rs.map (fun r => parseDate r.1))) := by
  constructor
  · intro h
    simp only [_get_mf_navs]
    rw [if_neg hne, parseRecords_eq_none rs h]
  · intro h
    obtain ⟨es, he, hlen, hmap⟩ := parseRecords_eq_some rs h
    refine ⟨List.insertionSort entryLE es, ?_, ?_, ?_, ?_⟩
    · simp only [_get_mf_navs]
      rw [if_neg hne, he]
    · rw [(List.perm_insertionSort entryLE es).length_eq, hlen]
    · exact List.sorted_insertionSort entryLE es
    · rw [← hmap]
      exact (List.perm_insertionSort entryLE es).map Prod.fst

/-- C2 witness: two well-formed records arriving out of order come back
sorted, one entry per record. -/
theorem mf_navs_normalization_witness :
    ([(("02-01-2020"), ("2")), (("01-01-2020"), ("1"))] :
        List (String × String)) ≠ [] ∧
      (∀ r ∈ ([(("02-01-2020"), ("2")), (("01-01-2020"), ("1"))] :
        List (String × String)), (parseNav r.2).isSome) ∧
      ∃ out : Series,
        _get_mf_navs (some [(("02-01-2020"), ("2")), (("01-01-2020"), ("1"))]) =
            some out ∧
          out.length = 2 ∧ List.Sorted entryLE out ∧
          (out.map Prod.fst).Perm
            ([(("02-01-2020"), ("2")), (("01-01-2020"), ("1"))].map
              (fun r => parseDate r.1)) := by
  have h1 : ([(("02-01-2020"), ("2")), (("01-01-2020"), ("1"))] :
      List (String × String)) ≠ [] := by simp
  have h2 : ∀ r ∈ ([(("02-01-2020"), ("2")), (("01-01-2020"), ("1"))] :
      List (String × String)), (parseNav r.2).isSome := by decide
  obtain ⟨out, ho, hl, hs, hp⟩ := (mf_navs_normalization _ h1).2 h2
  exact ⟨h1, h2, out, ho, by simpa using hl, hs, hp⟩

/-- C2 counterexample: (i) a batch holding one NAV string that fails to parse
returns `none` — the bad record is not dropped, the whole batch fails; (ii) a
batch with two records on the same date keeps both — the result's timestamps
are NOT unique (no deduplication). -/
theorem mf_navs_cex :
    _get_mf_navs (some [(("01-01-2020"), ("10.5234")),
        (("02-01-2020"), ("10.6001")), (("03-01-2020"), ("abc"))]) = none ∧
      (_get_mf_navs (some [(("01-01-2020"), ("1")),
          (("01-01-2020"), ("2"))])).map (fun l => l.map Prod.fst) =
        some [some 20200101, some 20200101] :=
  ⟨by decide, by decide⟩

lemma retainedWindow_subset (S : List ℝ) (years : ℕ) :
    ∀ x ∈ retainedWindow S years, x ∈ S := by
  intro x hx
  unfold retainedWindow at hx
  split_ifs at hx
  · exact hx
  · exact hx
  · exact List.drop_subset _ S hx

lemma retainedWindow_ne_nil (S : List ℝ) (years : ℕ) (h2 : 2 ≤ S.length) :
    retainedWindow S years ≠ [] := by
  have hSne : S ≠ [] := by
    intro he
    rw [he] at h2
    simp at h2
  unfold retainedWindow
  split_ifs with hlt hz
  · exact hSne
  · exact hSne
  · intro he
    have hd := List.length_drop (S.length - years * 252) S
    rw [he] at hd
    simp at hd
    omega

/-- On an all-positive series with a non-zero horizon, `_calculate_cagr`
never raises: it returns `.ok` (possibly `.ok none`). -/
lemma cagr_ok_of_pos (l : List ℝ) (years : ℕ) (hy : years ≠ 0)
    (hpos : ∀ x ∈ l, 0 < x) : ∃ v, _calculate_cagr l years = .ok v := by
  by_cases h2 : l.length < 2
  · refine ⟨none, ?_⟩
    simp only [_calculate_cagr]
    rw [if_pos h2]
  · have hwne := retainedWindow_ne_nil l years (by omega)
    have hstart : 0 < (retainedWindow l years).headI :=
      hpos _ (retainedWindow_subset l years _ (headI_mem _ hwne))
    have hend : 0 < (retainedWindow l years).getLastI :=
      hpos _ (retainedWindow_subset l years _ (getLastI_mem _ hwne))
    have hay : actualYears l years ≠ 0 := by
      unfold actualYears
      split_ifs with hlt
      · have hc : (0 : ℝ) < (l.length : ℝ) := by
          exact_mod_cast (by omega : 0 < l.length)
        exact div_ne_zero (ne_of_gt hc) (by norm_num)
      · exact Nat.cast_ne_zero.mpr hy
    have hcond : ¬ ((retainedWindow l years).getLastI /
        (retainedWindow l years).headI < 0 ∧
        ∀ n : ℤ, 1 / actualYears l years ≠ (n : ℝ)) := by
      rintro ⟨hneg, -⟩
      exact absurd (div_nonneg hend.le hstart.le) (not_le.mpr hneg)
    refine ⟨some (pyround2 ((((retainedWindow l years).getLastI /
      (retainedWindow l years).headI) ^ (1 / actualYears l years) - 1) * 100)), ?_⟩
    simp only [_calculate_cagr]
    rw [if_neg h2, if_neg (not_le.mpr hstart), if_neg hay, if_neg hcond]

lemma analyze_eq_analyzeSeries (sh : Option Series)
    (mh : Option (List (String × String))) (id ty : String)
    (hty : ty = "stock" ∨ ty = "mutual_fund") :
    analyze_investment sh mh id ty = analyzeSeries id
      (if ty = "stock" then ("Stock: " ++ id)
        else ("Mutual Fund (scheme code: " ++ id ++ ")"))
      ty (fetchedSeries sh mh ty) := by
  rcases hty with rfl | rfl
  · rfl
  · rfl

lemma analyzeSeries_shape (id lbl ty : String) (p : Option Series) :
    (∃ m, analyzeSeries id lbl ty p = .error m) ∨
    (∃ r, analyzeSeries id lbl ty p = .report r ∧ 10 ≤ r.data_points ∧
      r.risk_free_rate_percent = 7 ∧ r.trading_days_per_year = 252 ∧
      r.identifier = id ∧ r.investment_type = ty) := by
  cases p with
  | none => exact Or.inl ⟨_, rfl⟩
  | some prices =>
    by_cases hl : prices.length < 10
    · exact Or.inl ⟨_, by simp only [analyzeSeries]; rw [if_pos hl]⟩
    · cases h1 : _calculate_cagr (prices.map Prod.snd) 1 with
      | error e =>
        exact Or.inl ⟨_, by simp only [analyzeSeries]; rw [if_neg hl, h1]⟩
      | ok c1 =>
        cases h3 : _calculate_cagr (prices.map Prod.snd) 3 with
        | error e =>
          exact Or.inl ⟨_, by simp only [analyzeSeries]; rw [if_neg hl, h1, h3]⟩
        | ok c3 =>
          cases h5 : _calculate_cagr (prices.map Prod.snd) 5 with
          | error e =>
            exact Or.inl ⟨_, by
              simp only [analyzeSeries]; rw [if_neg hl, h1, h3, h5]⟩
          | ok c5 =>
            cases hf1 : fmtDate prices.headI.1 with
            | none =>
              exact Or.inl ⟨_, by
                simp only [analyzeSeries]; rw [if_neg hl, h1, h3, h5, hf1]⟩
            | some d1 =>
              cases hf2 : fmtDate prices.getLastI.1 with
              | none =>
                exact Or.inl ⟨_, by
                  simp only [analyzeSeries]
                  rw [if_neg hl, h1, h3, h5, hf1, hf2]⟩
              | some d2 =>
                refine Or.inr ⟨_, by
                  simp only [analyzeSeries]
                  rw [if_neg hl, h1, h3, h5, hf1, hf2], ?_, ?_, rfl, rfl, rfl⟩
                · show 10 ≤ prices.length
                  omega
                · show RISK_FREE_RATE * 100 = 7
                  norm_num [RISK_FREE_RATE]

/-- C8: an `investment_type` that is neither `stock` nor `mutual_fund` is
rejected immediately with the invalid-asset-class error, independently of any
fetched data (no fetch is consulted). -/
theorem invalid_type_error (sh : Option Series)
    (mh : Option (List (String × String))) (id ty : String)
    (h1 : ty ≠ "stock") (h2 : ty ≠ "mutual_fund") :
    analyze_investment sh mh id ty = .error (invalidTypeMsg ty) ∧
    ∀ (sh' : Option Series) (mh' : Option (List (String × String))),
      analyze_investment sh' mh' id ty = analyze_investment sh mh id ty := by
  have hmain : ∀ (a : Option Series) (b : Option (List (String × String))),
      analyze_investment a b id ty = .error (invalidTypeMsg ty) := by
    intro a b
    unfold analyze_investment
    rw [if_neg h1, if_neg h2]
  exact ⟨hmain sh mh, fun sh' mh' => by rw [hmain sh' mh', hmain sh mh]⟩

/-- C8 witness: the unrecognized type `bond`. -/
theorem invalid_type_error_witness :
    (("bond") : String) ≠ ("stock") ∧ (("bond") : String) ≠ ("mutual_fund") ∧
      analyze_investment none none ("X") ("bond") =
        .error (invalidTypeMsg ("bond")) :=
  ⟨by decide, by decide,
   (invalid_type_error none none ("X") ("bond") (by decide) (by decide)).1⟩

/-- C9: every `analyze_investment` result is either an error dictionary or a
full report — never both, never a partial state — and every success report
has at least 10 data points and carries the fixed assumptions
`risk_free_rate_percent = 7` and `trading_days_per_year = 252`. -/
theorem analyze_result_shape (sh : Option Series)
    (mh : Option (List (String × String))) (id ty : String) :
    (∃ m, analyze_investment sh mh id ty = .error m) ∨
    (∃ r, analyze_investment sh mh id ty = .report r ∧ 10 ≤ r.data_points ∧
      r.risk_free_rate_percent = 7 ∧ r.trading_days_per_year = 252 ∧
      r.identifier = id ∧ r.investment_type = ty) := by
  by_cases h1 : ty = "stock"
  · subst h1
    rw [analyze_eq_analyzeSeries sh mh id ("stock") (Or.inl rfl)]
    exact analyzeSeries_shape _ _ _ _
  · by_cases h2 : ty = "mutual_fund"
    · subst h2
      rw [analyze_eq_analyzeSeries sh mh id ("mutual_fund") (Or.inr rfl)]
      exact analyzeSeries_shape _ _ _ _
    · refine Or.inl ⟨invalidTypeMsg ty, ?_⟩
      unfold analyze_investment
      rw [if_neg h1, if_neg h2]

/-- C3 (amended): for a recognized investment type, a missing or
fewer-than-10-point series yields the single identifier-naming error, with no
metric attempted; a series of at least 10 points yields the complete report,
each metric slot independently filled from its metric function — PROVIDED the
series values are positive (ruling out the negative-base power fault) and its
boundary timestamps are valid (ruling out the `strftime`-on-`NaT` fault);
either fault is caught and converted into the single explanatory error
instead of a report (see the counterexample). -/
theorem analyze_gate_and_full_report (sh : Option Series)
    (mh : Option (List (String × String))) (id ty : String)
    (hty : ty = "stock" ∨ ty = "mutual_fund") :
    (fetchedSeries sh mh ty = none →
      analyze_investment sh mh id ty = .error (insufficientDataMsg id)) ∧
    (∀ s : Series, fetchedSeries sh mh ty = some s → s.length < 10 →
      analyze_investment sh mh id ty = .error (insufficientDataMsg id)) ∧
    (∀ s : Series, fetchedSeries sh mh ty = some s → 10 ≤ s.length →
      (∀ e ∈ s, 0 < e.2) → s.headI.1.isSome → s.getLastI.1.isSome →
      ∃ r : Report, analyze_investment sh mh id ty = .report r ∧
        r.identifier = id ∧ r.investment_type = ty ∧ r.data_points = s.length ∧
        Except.ok r.metrics.cagr_1y_percent =
          _calculate_cagr (s.map Prod.snd) 1 ∧
        Except.ok r.metrics.cagr_3y_percent =
          _calculate_cagr (s.map Prod.snd) 3 ∧
        Except.ok r.metrics.cagr_5y_percent =
          _calculate_cagr (s.map Prod.snd) 5 ∧
        r.metrics.annualized_volatility_percent =
          _calculate_volatility (s.map Prod.snd) ∧
        r.metrics.sharpe_ratio = _calculate_sharpe (s.map Prod.snd) ∧
        r.metrics.max_drawdown_percent =
          _calculate_max_drawdown (s.map Prod.snd)) := by
  rw [analyze_eq_analyzeSeries sh mh id ty hty]
  refine ⟨?_, ?_, ?_⟩
  · intro h
    rw [h]
    rfl
  · intro s hs hlen
    rw [hs]
    simp only [analyzeSeries]
    rw [if_pos hlen]
  · intro s hs hlen hpos h1 h2
    rw [hs]
    have hvpos : ∀ x ∈ s.map Prod.snd, 0 < x := by
      intro x hx
      obtain ⟨e, he, rfl⟩ := List.mem_map.mp hx
      exact hpos e he
    obtain ⟨c1, e1⟩ := cagr_ok_of_pos (s.map Prod.snd) 1 one_ne_zero hvpos
    obtain ⟨c3, e3⟩ := cagr_ok_of_pos (s.map Prod.snd) 3 (by norm_num) hvpos
    obtain ⟨c5, e5⟩ := cagr_ok_of_pos (s.map Prod.snd) 5 (by norm_num) hvpos
    obtain ⟨t1, ht1⟩ := Option.isSome_iff_exists.mp h1
    obtain ⟨t2, ht2⟩ := Option.isSome_iff_exists.mp h2
    simp only [analyzeSeries]
    rw [if_neg (not_lt.mpr hlen), e1, e3, e5, ht1, ht2]
    simp only [fmtDate]
    exact ⟨_, rfl, rfl, rfl, rfl, rfl, rfl, rfl, rfl, rfl, rfl⟩

/-- C3 witness: a 10-point constant positive stock series produces a full
report with the right provenance. -/
theorem analyze_gate_and_full_report_witness :
    10 ≤ constSeries10.length ∧
      fetchedSeries (some constSeries10) none ("stock") = some constSeries10 ∧
      (∀ e ∈ constSeries10, 0 < e.2) ∧
      ∃ r : Report,
        analyze_investment (some constSeries10) none ("RELIANCE.NS") ("stock") =
            .report r ∧
          r.identifier = ("RELIANCE.NS") ∧ r.data_points = constSeries10.length := by
  have hpos : ∀ e ∈ constSeries10, 0 < e.2 := by
    intro e he
    simp only [constSeries10, List.mem_cons, List.not_mem_nil, or_false] at he
    rcases he with rfl | rfl | rfl | rfl | rfl | rfl | rfl | rfl | rfl | rfl <;>
      norm_num
  refine ⟨by norm_num [constSeries10], rfl, hpos, ?_⟩
  obtain ⟨r, hr, hid, -, hdp, -, -, -, -, -, -⟩ :=
    (analyze_gate_and_full_report (some constSeries10) none ("RELIANCE.NS")
      ("stock") (Or.inl rfl)).2.2 constSeries10 rfl
      (by norm_num [constSeries10]) hpos rfl rfl
  exact ⟨r, hr, hid, hdp⟩

/-- C3 counterexample: two stock series that pass the 10-point gate yet do
NOT produce a complete report — the code's `except` turns a metric fault
(negative base under a fractional exponent) and a `strftime`-on-`NaT` fault
into a request-level error. -/
theorem analyze_gate_cex :
    10 ≤ negEndSeries.length ∧
      fetchedSeries (some negEndSeries) none ("stock") = some negEndSeries ∧
      analyze_investment (some negEndSeries) none ("X") ("stock") =
        .error (analysisFailedMsg ("X")
          ("TypeError: type complex does not define __round__ method")) ∧
      10 ≤ natEndSeries.length ∧
      fetchedSeries (some natEndSeries) none ("stock") = some natEndSeries ∧
      analyze_investment (some natEndSeries) none ("X") ("stock") =
        .error (analysisFailedMsg ("X") natStrftimeMsg) := by
  refine ⟨by norm_num [negEndSeries], rfl, ?_, by norm_num [natEndSeries], rfl, ?_⟩
  · rw [analyze_eq_analyzeSeries (some negEndSeries) none ("X") ("stock")
      (Or.inl rfl)]
    have hf : fetchedSeries (some negEndSeries) none ("stock") =
        some negEndSeries := rfl
    rw [hf]
    simp only [analyzeSeries]
    rw [if_neg (by norm_num [negEndSeries])]
    have hv : negEndSeries.map Prod.snd =
        [(1 : ℝ), 1, 1, 1, 1, 1, 1, 1, 1, -1] := by
      simp [negEndSeries]
    rw [hv]
    have hw : retainedWindow [(1 : ℝ), 1, 1, 1, 1, 1, 1, 1, 1, -1] 1 =
        [(1 : ℝ), 1, 1, 1, 1, 1, 1, 1, 1, -1] := by
      unfold retainedWindow
      norm_num
    have ha : actualYears [(1 : ℝ), 1, 1, 1, 1, 1, 1, 1, 1, -1] 1 =
        (10 : ℝ) / 252 := by
      unfold actualYears
      norm_num
    have hlast : [(1 : ℝ), 1, 1, 1, 1, 1, 1, 1, 1, -1].getLastI = -1 := by
      simp [List.getLastI]
    have hcagr : _calculate_cagr [(1 : ℝ), 1, 1, 1, 1, 1, 1, 1, 1, -1] 1 =
        .error ("TypeError: type complex does not define __round__ method") := by
      simp only [_calculate_cagr]
      rw [hw, ha, hlast]
      rw [if_neg (by norm_num), if_neg (by norm_num), if_neg (by norm_num),
        if_pos ?_]
      constructor
      · norm_num
      · intro n
        rw [one_div_div]
        exact div_not_int 252 10 (by norm_num) (by decide) n
    rw [hcagr]
  · rw [analyze_eq_analyzeSeries (some natEndSeries) none ("X") ("stock")
      (Or.inl rfl)]
    have hf : fetchedSeries (some natEndSeries) none ("stock") =
        some natEndSeries := rfl
    rw [hf]
    simp only [analyzeSeries]
    rw [if_neg (by norm_num [natEndSeries])]
    have hvpos : ∀ x ∈ natEndSeries.map Prod.snd, 0 < x := by
      intro x hx
      simp [natEndSeries] at hx
      rw [hx]
      norm_num
    obtain ⟨c1, e1⟩ := cagr_ok_of_pos (natEndSeries.map Prod.snd) 1
      one_ne_zero hvpos
    obtain ⟨c3, e3⟩ := cagr_ok_of_pos (natEndSeries.map Prod.snd) 3
      (by norm_num) hvpos
    obtain ⟨c5, e5⟩ := cagr_ok_of_pos (natEndSeries.map Prod.snd) 5
      (by norm_num) hvpos
    rw [e1, e3, e5]
    have hh : natEndSeries.headI.1 = some 0 := rfl
    have hl2 : natEndSeries.getLastI.1 = none := by
      simp [natEndSeries, List.getLastI]
    rw [hh, hl2]
    simp only [fmtDate]

end FinAdvisor
